import Mathlib

/-!
# Verification of the endless-runner game core (`src/index.js`)

This file gives a shallow embedding of the simulation core of the game:
physics integration, obstacle spawning and recycling, collision detection,
scoring and high-score persistence.

Modelling conventions:

* JavaScript numbers are modelled as rationals (`ℚ`); all arithmetic in the
  source is exact on the inputs we consider, so no rounding model is needed.
* Every call to `Math.random()` is modelled by an explicit parameter,
  assumed (where a claim needs it) to lie in `[0, 1)`.  The source calls
  `Math.random()` at most four times per tick (spawn coin, spawn width,
  spawn height, timer reset), so a tick takes four draw parameters.
* JavaScript object identity (references held by the active list and the
  pool) is modelled by a numeric `id` field on obstacles, assigned from an
  allocation counter `nextId` when `spawnObstacle` allocates a fresh object;
  popping the pool reuses the popped object's `id`.  No other part of the
  model reads `id`.
* The pool is a stack (`push`/`pop` at the array's end in the source); we
  keep the stack top at the *head* of the Lean list.
* The persisted high score is modelled by the `highScore` field itself: the
  source keeps the in-memory variable and the `localStorage` entry in sync
  (both are written together in `gameOver`).  `gameOver` additionally
  returns whether `localStorage.setItem` was called.
* `localStorage.getItem` at startup is modelled by an `Option String`
  argument to `loadHighScore`; the result is `Option Int`, with `none`
  standing for `NaN` (which is what `parseInt` produces on strings with no
  parseable leading integer).
* `requestAnimationFrame` scheduling and all rendering are outside the
  model; one call of `loop` models one simulation tick (the body of the
  source's `loop` minus `render`/`requestAnimationFrame`).  `resetGame`
  models lines 96–105; the synchronous `loop(lastTime)` call it ends with
  is the first tick, i.e. `loop` applied at `now = lastTime`.
-/

namespace Jumper

/-- Constant `baseW`, src/index.js line 45. -/
def baseW : ℚ := 800

/-- Constant `baseH`, src/index.js line 45. -/
def baseH : ℚ := 400

/-- Constant `gravity`, src/index.js line 67. -/
def gravity : ℚ := 1600

/-- Constant `groundY`, src/index.js line 68. -/
def groundY : ℚ := baseH - 60

/-- The `player` object, src/index.js lines 69–77. -/
structure Player where
  x : ℚ
  y : ℚ
  w : ℚ
  h : ℚ
  vy : ℚ
  onGround : Bool
  color : String
deriving DecidableEq

/-- Initial value of `player`, src/index.js lines 69–77. -/
def initPlayer : Player :=
  { x := 80, y := groundY, w := 40, h := 40, vy := 0, onGround := true,
    color := "#ffd54a" }

/-- An obstacle object, fields as assigned in `spawnObstacle`
(src/index.js lines 85–94).  `id` models JavaScript reference identity
(see the module docstring); it has no counterpart in the source. -/
structure Obstacle where
  id : ℕ
  w : ℚ
  h : ℚ
  x : ℚ
  y : ℚ
  color : String
  passed : Bool
deriving DecidableEq

/-- The duck-typed `{x, y, w, h}` shape consumed by `rectsOverlap`. -/
structure Rect where
  x : ℚ
  y : ℚ
  w : ℚ
  h : ℚ
deriving DecidableEq

/-- View of the player as a rectangle (the fields `rectsOverlap` reads). -/
def Player.rect (p : Player) : Rect := ⟨p.x, p.y, p.w, p.h⟩

/-- View of an obstacle as a rectangle (the fields `rectsOverlap` reads). -/
def Obstacle.rect (ob : Obstacle) : Rect := ⟨ob.x, ob.y, ob.w, ob.h⟩

/-- Function `rectsOverlap`, src/index.js lines 130–132. -/
def rectsOverlap (a b : Rect) : Bool :=
  decide (a.x < b.x + b.w) && decide (a.x + a.w > b.x) &&
    decide (a.y < b.y + b.h) && decide (a.y + a.h > b.y)

/-- Function `rand(min, max)`, src/index.js line 84; `r` models the
`Math.random()` draw. -/
def rand (mn mx r : ℚ) : ℚ := r * (mx - mn) + mn

/-- The module-level mutable game state, src/index.js lines 62–81.
`nextId` is the allocation counter for the obstacle-identity model. -/
structure GameState where
  running : Bool
  lastTime : ℚ
  spawnTimer : ℚ
  score : ℚ
  speed : ℚ
  player : Player
  obstacles : List Obstacle
  obstaclePool : List Obstacle
  highScore : Int
  nextId : ℕ
deriving DecidableEq

/-- The state right after module initialisation (src/index.js lines 62–81),
with a loaded integer high score of 0. -/
def initState : GameState :=
  { running := false, lastTime := 0, spawnTimer := 0, score := 0,
    speed := 240, player := initPlayer, obstacles := [], obstaclePool := [],
    highScore := 0, nextId := 0 }

/-- Function `spawnObstacle`, src/index.js lines 85–94.  `c` is the width-branch
coin draw, `r1` the width draw, `r2` the height draw
(`ob.w = Math.random() < 0.4 ? 20 + Math.random()*20 : 30 + Math.random()*40`,
`ob.h = 20 + Math.random()*40`).  `obstaclePool.pop() || {}` either pops the
stack top or allocates a fresh object (fresh identity `nextId`). -/
def spawnObstacle (c r1 r2 : ℚ) (s : GameState) : GameState :=
  let pick : Obstacle × List Obstacle × ℕ :=
    match s.obstaclePool with
    | [] => (⟨s.nextId, 0, 0, 0, 0, "", false⟩, [], s.nextId + 1)
    | p :: ps => (p, ps, s.nextId)
  let w : ℚ := if c < 2/5 then 20 + r1 * 20 else 30 + r1 * 40
  let h : ℚ := 20 + r2 * 40
  let ob : Obstacle :=
    { id := pick.1.id, w := w, h := h, x := baseW + 20,
      y := groundY + (s.player.h - h), color := "#ef5350", passed := false }
  { s with obstacles := s.obstacles ++ [ob], obstaclePool := pick.2.1,
           nextId := pick.2.2 }

/-- Function `resetGame`, src/index.js lines 95–107 (the state mutations, lines
96–105; the closing `loop(lastTime)` call is the first tick, modelled by
`loop` at `now = nowR`). -/
def resetGame (nowR : ℚ) (s : GameState) : GameState :=
  { s with obstacles := [], obstaclePool := [],
           player := { s.player with y := groundY, vy := 0, onGround := true },
           score := 0, spawnTimer := 0, speed := 240, running := true,
           lastTime := nowR }

/-- The high-score update in `gameOver`, src/index.js lines 110–113:
`if (score > highScore) { highScore = Math.floor(score); setItem(...) }`.
Returns the new `highScore` and whether `localStorage.setItem` was
called. -/
def gameOver (score : ℚ) (highScore : Int) : Int × Bool :=
  if (highScore : ℚ) < score then (⌊score⌋, true) else (highScore, false)

/-- Function `doJump`, src/index.js lines 117–123.  In the `!running` branch the
source calls `resetGame`, whose trailing synchronous tick is modelled
separately (see `resetGame`). -/
def doJump (nowR : ℚ) (s : GameState) : GameState :=
  if s.running = false then resetGame nowR s
  else if s.player.onGround then
    { s with player := { s.player with vy := -720, onGround := false } }
  else s

/-- The player-physics step, src/index.js lines 155–161:
`vy += gravity*dt; y += vy*dt;` then the ground clamp.  Note the source
has no `else` branch: `onGround` is left unchanged when the clamp does not
fire. -/
def physStep (dt : ℚ) (p : Player) : Player :=
  let vy := p.vy + gravity * dt
  let y := p.y + vy * dt
  if y ≥ groundY then { p with y := groundY, vy := 0, onGround := true }
  else { p with y := y, vy := vy }

/-- The physics step as the specification describes it: identical to
`physStep` except that the non-clamp branch explicitly sets
`onGround := false`. -/
def physStepSpec (dt : ℚ) (p : Player) : Player :=
  let vy := p.vy + gravity * dt
  let y := p.y + vy * dt
  if y ≥ groundY then { p with y := groundY, vy := 0, onGround := true }
  else { p with y := y, vy := vy, onGround := false }

/-- The per-obstacle move and pass-bonus check, src/index.js lines
166–170: `ob.x -= d` (with `d = speed*dt`), then
`if (!ob.passed && ob.x + ob.w < player.x) { ob.passed = true; score += 5 }`.
Returns the updated obstacle and whether the `+5` bonus fired. -/
def obMovePass (px d : ℚ) (ob : Obstacle) : Obstacle × Bool :=
  let x := ob.x - d
  let hit := !ob.passed && decide (x + ob.w < px)
  ({ ob with x := x, passed := ob.passed || hit }, hit)

/-- The parts of the loop state that the obstacle loop (src/index.js
lines 164–180) can mutate: `score`, `running`, `highScore` (via
`gameOver`) and the pool. -/
structure LoopAcc where
  score : ℚ
  running : Bool
  highScore : Int
  pool : List Obstacle
deriving DecidableEq

/-- The obstacle loop, src/index.js lines 164–180.  The source iterates
the array downwards (`i = length-1 .. 0`), so the recursion processes the
tail (higher indices) before the head; `splice`+`push` moves a fully
off-screen obstacle from the active list to the pool; otherwise a
collision runs `gameOver` (which does NOT break the loop in the source). -/
def obLoop (pl : Player) (v dt : ℚ) : List Obstacle → LoopAcc → List Obstacle × LoopAcc
  | [], a => ([], a)
  | ob :: rest, a =>
      let r := obLoop pl v dt rest a
      let m := obMovePass pl.x (v * dt) ob
      let a2 := if m.2 then { r.2 with score := r.2.score + 5 } else r.2
      if m.1.x + m.1.w < -40 then
        (r.1, { a2 with pool := m.1 :: a2.pool })
      else if rectsOverlap pl.rect m.1.rect then
        (m.1 :: r.1,
         { a2 with running := false,
                   highScore := (gameOver a2.score a2.highScore).1 })
      else (m.1 :: r.1, a2)

/-- The spawn-timer reset value, src/index.js line 151:
`rand(0.9, 1.6) - Math.min(0.5, speed / 1000)`; `rt` is the
`Math.random()` draw inside `rand`. -/
def newSpawnTimer (speed rt : ℚ) : ℚ :=
  rand (9/10) (16/10) rt - min (1/2) (speed / 1000)

/-- One simulation tick: the body of `loop`, src/index.js lines 135–184,
minus rendering and rescheduling.  `now` is the timestamp argument;
`c`, `r1`, `r2` are the spawn draws and `rt` the timer-reset draw (used
only when the spawn condition fires). -/
def loop (now c r1 r2 rt : ℚ) (s : GameState) : GameState :=
  if s.running = false then s
  else
    let dt := min ((now - s.lastTime) / 1000) (33/1000)
    let score := s.score + dt * 10
    let speed := s.speed + dt * 2
    let t := s.spawnTimer - dt
    let s1 : GameState :=
      { s with lastTime := now, score := score, speed := speed, spawnTimer := t }
    let s2 : GameState :=
      if t ≤ 0 then
        { spawnObstacle c r1 r2 s1 with spawnTimer := newSpawnTimer speed rt }
      else s1
    let pl := physStep dt s2.player
    let r := obLoop pl s2.speed dt s2.obstacles
      ⟨s2.score, s2.running, s2.highScore, s2.obstaclePool⟩
    { s2 with player := pl, obstacles := r.1, obstaclePool := r.2.pool,
              score := r.2.score, running := r.2.running,
              highScore := r.2.highScore }

/-- JavaScript whitespace skipped by `parseInt` (the common subset:
space, tab, newline, carriage return, form feed, vertical tab). -/
def jsWhitespace (ch : Char) : Bool :=
  ch == ' ' || ch == '\t' || ch == '\n' || ch == '\r' ||
    ch == '\x0b' || ch == '\x0c'

/-- Value of a digit string. -/
def digitsToNat (cs : List Char) : ℕ :=
  cs.foldl (fun a ch => a * 10 + (ch.toNat - 48)) 0

/-- Model of `parseInt(s, 10)`: skip leading whitespace, optional sign, read
leading decimal digits; `NaN` (modelled as `none`) if there are no
digits. -/
def parseIntJS (s : String) : Option Int :=
  let cs := s.data.dropWhile jsWhitespace
  let sc : Int × List Char :=
    match cs with
    | '-' :: restc => (-1, restc)
    | '+' :: restc => (1, restc)
    | _ => (1, cs)
  let ds := sc.2.takeWhile (fun ch => ch.isDigit)
  if ds.isEmpty then none else some (sc.1 * (digitsToNat ds : Int))

/-- The startup high-score load, src/index.js line 81:
`parseInt(localStorage.getItem(highKey) || '0', 10)`.  `stored` is the
`getItem` result (`none` for `null`); `null` and the empty string are
falsy, so both are replaced by the string `'0'` before parsing. -/
def loadHighScore : Option String → Option Int
  | none => parseIntJS ("0")
  | some s => parseIntJS (if s = "" then "0" else s)

/-- Iterated pass-bonus check for a single obstacle: `ds` is the list of
per-tick displacements (`speed*dt` of each tick); the result is the list
of per-tick bonus flags (whether the `+5` fired on that tick). -/
def obPassRun (px : ℚ) (ob : Obstacle) : List ℚ → List Bool
  | [] => []
  | d :: ds =>
      (obMovePass px d ob).2 :: obPassRun px (obMovePass px d ob).1 ds

/-- After tick `i` (0-based) of the displacement list `ds`, the
obstacle's trailing edge is strictly left of the player's leading edge
`px`. -/
def condAt (px : ℚ) (ob : Obstacle) (ds : List ℚ) (i : ℕ) : Prop :=
  ob.x - (ds.take (i + 1)).sum + ob.w < px

instance (px : ℚ) (ob : Obstacle) (ds : List ℚ) (i : ℕ) :
    Decidable (condAt px ob ds i) := by
  unfold condAt; infer_instance

/-- The ground-contact invariant of the running system: whenever the
player is flagged as grounded, its velocity is zero and it sits exactly
at ground level.  It holds initially and is preserved by every operation
(see `groundInv_physStep`, `groundInv_doJump`, `groundInv_resetGame`,
`groundInv_loop`). -/
def GroundInv (p : Player) : Prop :=
  p.onGround = true → p.vy = 0 ∧ p.y = groundY

instance (p : Player) : Decidable (GroundInv p) := by
  unfold GroundInv; infer_instance

/-- Identities of a list of obstacles. -/
def obIds (l : List Obstacle) : List ℕ := l.map (fun ob => ob.id)

/-- Pool/active exclusivity: no obstacle identity occurs twice across the
active list and the pool (in particular none occurs in both), and every
identity in use is below the allocation counter. -/
def PoolInv (s : GameState) : Prop :=
  (obIds s.obstacles ++ obIds s.obstaclePool).Nodup ∧
    ∀ i ∈ obIds s.obstacles ++ obIds s.obstaclePool, i < s.nextId

instance (s : GameState) : Decidable (PoolInv s) := by
  unfold PoolInv; infer_instance

/-! ## Basic facts about the embedded operations -/

lemma spawnObstacle_score (c r1 r2 : ℚ) (s : GameState) :
    (spawnObstacle c r1 r2 s).score = s.score := rfl

lemma spawnObstacle_speed (c r1 r2 : ℚ) (s : GameState) :
    (spawnObstacle c r1 r2 s).speed = s.speed := rfl

lemma spawnObstacle_highScore (c r1 r2 : ℚ) (s : GameState) :
    (spawnObstacle c r1 r2 s).highScore = s.highScore := rfl

lemma spawnObstacle_running (c r1 r2 : ℚ) (s : GameState) :
    (spawnObstacle c r1 r2 s).running = s.running := rfl

lemma spawnObstacle_player (c r1 r2 : ℚ) (s : GameState) :
    (spawnObstacle c r1 r2 s).player = s.player := rfl

lemma physStep_x (dt : ℚ) (p : Player) : (physStep dt p).x = p.x := by
  unfold physStep; dsimp only; split <;> rfl

lemma physStep_w (dt : ℚ) (p : Player) : (physStep dt p).w = p.w := by
  unfold physStep; dsimp only; split <;> rfl

lemma obMovePass_fst_id (px d : ℚ) (ob : Obstacle) :
    ((obMovePass px d ob).1).id = ob.id := rfl

lemma obMovePass_fst_x (px d : ℚ) (ob : Obstacle) :
    ((obMovePass px d ob).1).x = ob.x - d := rfl

lemma obMovePass_fst_w (px d : ℚ) (ob : Obstacle) :
    ((obMovePass px d ob).1).w = ob.w := rfl

/-- Function `gameOver` never calls `setItem` with a smaller value: the stored high
score is monotone. -/
lemma gameOver_le (score : ℚ) (highScore : Int) :
    highScore ≤ (gameOver score highScore).1 := by
  unfold gameOver
  split
  · exact Int.le_floor.mpr (le_of_lt (by assumption))
  · exact le_refl _

/-- The high score produced by `gameOver` is the max of the old one and
the floored score. -/
lemma gameOver_fst (score : ℚ) (highScore : Int) :
    (gameOver score highScore).1 = max highScore ⌊score⌋ := by
  unfold gameOver
  split
  · exact (max_eq_right (Int.le_floor.mpr (le_of_lt (by assumption)))).symm
  · rename_i h
    refine (max_eq_left ?_).symm
    exact Int.floor_le_floor (le_of_not_lt h) |>.trans (by simp)

/-- Function `gameOver` calls `setItem` exactly when the (un-floored) score
exceeds the stored high score. -/
lemma gameOver_snd (score : ℚ) (highScore : Int) :
    (gameOver score highScore).2 = true ↔ (highScore : ℚ) < score := by
  unfold gameOver
  split <;> simp_all

/-- The obstacle loop never decreases the high score. -/
lemma obLoop_highScore_mono (pl : Player) (v dt : ℚ) :
    ∀ (obs : List Obstacle) (a : LoopAcc),
      a.highScore ≤ (obLoop pl v dt obs a).2.highScore := by
  intro obs
  induction obs with
  | nil => intro a; exact le_refl _
  | cons ob rest ih =>
      intro a
      simp only [obLoop]
      have h1 : a.highScore ≤ (obLoop pl v dt rest a).2.highScore := ih a
      have h2 :
          (obLoop pl v dt rest a).2.highScore =
            (if (obMovePass pl.x (v * dt) ob).2 then
                { (obLoop pl v dt rest a).2 with
                    score := (obLoop pl v dt rest a).2.score + 5 }
              else (obLoop pl v dt rest a).2).highScore := by
        split <;> rfl
      split
      · exact h1.trans (le_of_eq h2)
      · split
        · exact (h1.trans (le_of_eq h2)).trans (gameOver_le _ _)
        · exact h1.trans (le_of_eq h2)

/-- The obstacle loop never decreases the score. -/
lemma obLoop_score_mono (pl : Player) (v dt : ℚ) :
    ∀ (obs : List Obstacle) (a : LoopAcc),
      a.score ≤ (obLoop pl v dt obs a).2.score := by
  intro obs
  induction obs with
  | nil => intro a; exact le_refl _
  | cons ob rest ih =>
      intro a
      simp only [obLoop]
      have h1 : a.score ≤ (obLoop pl v dt rest a).2.score := ih a
      have h2 :
          (obLoop pl v dt rest a).2.score ≤
            (if (obMovePass pl.x (v * dt) ob).2 then
                { (obLoop pl v dt rest a).2 with
                    score := (obLoop pl v dt rest a).2.score + 5 }
              else (obLoop pl v dt rest a).2).score := by
        split
        · simp
        · exact le_refl _
      split
      · exact h1.trans h2
      · split <;> exact h1.trans h2

/-- A tick never decreases the stored high score. -/
lemma loop_highScore_mono (now c r1 r2 rt : ℚ) (s : GameState) :
    s.highScore ≤ (loop now c r1 r2 rt s).highScore := by
  unfold loop
  split
  · exact le_refl _
  · dsimp only
    split
    · exact obLoop_highScore_mono _ _ _ _ _
    · exact obLoop_highScore_mono _ _ _ _ _

/-! ## Claim theorems -/

/-- Claim C3: the collision predicate over two axis-aligned rectangles
returns `true` iff `a.x < b.x+b.w ∧ a.x+a.w > b.x ∧ a.y < b.y+b.h ∧
a.y+a.h > b.y`, with exact strict inequalities; rectangles sharing only
an edge (`a.x+a.w = b.x`) do not collide. -/
theorem C3_rectsOverlap_strict (a b : Rect) :
    (rectsOverlap a b = true ↔
      (a.x < b.x + b.w ∧ a.x + a.w > b.x ∧ a.y < b.y + b.h ∧ a.y + a.h > b.y)) ∧
    (a.x + a.w = b.x → rectsOverlap a b = false) := by
  constructor
  · simp [rectsOverlap, and_assoc]
  · intro h
    simp [rectsOverlap, h]

/-- Witness for C3 at concrete edge-touching rectangles. -/
theorem C3_witness :
    rectsOverlap ⟨0, 0, 1, 1⟩ ⟨1, 0, 1, 1⟩ = false :=
  (C3_rectsOverlap_strict ⟨0, 0, 1, 1⟩ ⟨1, 0, 1, 1⟩).2 (by norm_num)

/-- Claim C7: the reset spawn interval
`rand(0.9, 1.6) - min(0.5, speed/1000)` is at least `0.4` (hence strictly
positive) for every speed and every random draw in `[0, 1)`. -/
theorem C7_spawn_interval_positive (speed r : ℚ)
    (h0 : 0 ≤ r) (h1 : r < 1) :
    (2/5 : ℚ) ≤ newSpawnTimer speed r ∧ 0 < newSpawnTimer speed r := by
  have hmin : min (1/2 : ℚ) (speed / 1000) ≤ 1/2 := min_le_left _ _
  have hr : (9/10 : ℚ) ≤ rand (9/10) (16/10) r := by
    unfold rand
    nlinarith
  unfold newSpawnTimer
  constructor <;> linarith

/-- Witness for C7 at `speed = 240`, draw `r = 0`. -/
theorem C7_witness :
    ((0 : ℚ) ≤ 0 ∧ (0 : ℚ) < 1) ∧
      ((2/5 : ℚ) ≤ newSpawnTimer 240 0 ∧ 0 < newSpawnTimer 240 0) :=
  ⟨⟨le_refl 0, by norm_num⟩,
    C7_spawn_interval_positive 240 0 (le_refl 0) (by norm_num)⟩

/-- Counterexample for C1 as stated: with stored high score 5 and final
score 5.5, `gameOver` does write to `localStorage` (second component
`true`) even though `⌊5.5⌋ = 5` does not exceed the stored high score 5 —
the write is gated on `score > highScore` before flooring, not on
`⌊score⌋ > highScore`. -/
theorem C1_counterexample :
    (gameOver (11/2) 5).2 = true ∧ ⌊(11/2 : ℚ)⌋ ≤ 5 := by
  constructor
  · unfold gameOver
    rw [if_pos (by norm_num)]
  · have h : ⌊(11/2 : ℚ)⌋ = 5 := by
      rw [Int.floor_eq_iff]
      norm_num
    rw [h]

/-- Claim C1, amended: on run end the stored high score is written with
`⌊score⌋` iff the un-floored score exceeds the stored high score (so a
write can occur that rewrites the same value, when
`⌊score⌋ = highScore < score`); the stored value after `gameOver` equals
`max(highScore_before, ⌊score⌋)` — in particular it never decreases — and
a whole tick never decreases it either. -/
theorem C1_amended :
    (∀ (score : ℚ) (highScore : Int),
       ((gameOver score highScore).2 = true ↔ (highScore : ℚ) < score) ∧
       (gameOver score highScore).1 = max highScore ⌊score⌋ ∧
       highScore ≤ (gameOver score highScore).1) ∧
    (∀ (now c r1 r2 rt : ℚ) (s : GameState),
       s.highScore ≤ (loop now c r1 r2 rt s).highScore) :=
  ⟨fun score highScore =>
      ⟨gameOver_snd score highScore, gameOver_fst score highScore,
        gameOver_le score highScore⟩,
    loop_highScore_mono⟩

/-- Counterexample for C4 as stated: a stored value of `"abc"` is
unparseable, yet the startup load yields `NaN` (modelled `none`), not 0:
`parseInt('abc', 10)` is `NaN`, and the `|| '0'` guard only replaces
`null` and the empty string. -/
theorem C4_counterexample :
    loadHighScore (some ("abc")) = none ∧
      loadHighScore (some ("abc")) ≠ some 0 := by
  constructor
  · rfl
  · intro h
    rw [show loadHighScore (some ("abc")) = none from rfl] at h
    exact Option.noConfusion h

/-- Claim C4, amended: the startup load returns 0 when the stored value
is absent or the empty string (both falsy, replaced by `'0'`); any other
stored string is handed to `parseInt(·, 10)` unchanged, which yields
`NaN` — not 0 — when the string has no parseable leading integer.  No
error is raised in any case (the load is a total function). -/
theorem C4_amended :
    loadHighScore none = some 0 ∧
    loadHighScore (some ("")) = some 0 ∧
    (∀ s : String, s ≠ "" → loadHighScore (some s) = parseIntJS s) := by
  refine ⟨rfl, rfl, fun s hs => ?_⟩
  simp only [loadHighScore]
  rw [if_neg hs]

/-- Witness for C4 (amended) at the concrete stored string `"7"`. -/
theorem C4_witness :
    ("7" : String) ≠ "" ∧ loadHighScore (some ("7")) = parseIntJS ("7") :=
  ⟨by decide, C4_amended.2.2 ("7") (by decide)⟩

/-! ## The ground-contact invariant

The physics step of the source (lines 155–161) has no `else` branch: the
`onGround` flag is left unchanged when the clamp does not fire.  The flag
is nevertheless always `false` after an un-clamped step in the running
system, because whenever it is `true` the player sits at `y = groundY`
with `vy = 0` (`GroundInv`), and then a step with `dt ≥ 0` always
re-clamps.  The lemmas below show `GroundInv` holds initially and is
preserved by every operation that touches the player. -/

lemma groundInv_init : GroundInv initPlayer := fun _ => ⟨rfl, rfl⟩

lemma groundInv_physStep (dt : ℚ) (p : Player) (hp : GroundInv p)
    (hdt : 0 ≤ dt) : GroundInv (physStep dt p) := by
  unfold physStep
  dsimp only
  split
  · intro _
    exact ⟨rfl, rfl⟩
  · intro hg
    obtain ⟨hv, hy⟩ := hp hg
    rename_i hlt
    exfalso
    apply hlt
    rw [hv, hy]
    have hsq : 0 ≤ dt * dt := mul_nonneg hdt hdt
    unfold gravity
    nlinarith [hsq]

lemma groundInv_doJump (nowR : ℚ) (s : GameState) (hp : GroundInv s.player) :
    GroundInv (doJump nowR s).player := by
  unfold doJump
  split
  · intro _
    exact ⟨rfl, rfl⟩
  · split
    · intro hg
      exact absurd hg (by simp)
    · exact hp

lemma groundInv_resetGame (nowR : ℚ) (s : GameState) :
    GroundInv (resetGame nowR s).player := fun _ => ⟨rfl, rfl⟩

lemma groundInv_loop (now c r1 r2 rt : ℚ) (s : GameState)
    (hp : GroundInv s.player) (hnow : s.lastTime ≤ now) :
    GroundInv (loop now c r1 r2 rt s).player := by
  unfold loop
  split
  · exact hp
  · dsimp only
    have hdt : 0 ≤ min ((now - s.lastTime) / 1000) (33/1000 : ℚ) :=
      le_min (div_nonneg (by linarith) (by norm_num)) (by norm_num)
    split
    · exact groundInv_physStep _ _ (by simpa [spawnObstacle_player] using hp) hdt
    · exact groundInv_physStep _ _ hp hdt

/-- Claim C6: while the game is running, a jump request with the player
airborne changes nothing at all (in particular neither `vy` nor any other
player field); with the player grounded it sets `vy = -720` and
`onGround = false` and changes nothing else. -/
theorem C6_jump_airborne_noop (nowR : ℚ) (s : GameState)
    (hrun : s.running = true) :
    (s.player.onGround = false → doJump nowR s = s) ∧
    (s.player.onGround = true →
       doJump nowR s =
         { s with player := { s.player with vy := -720, onGround := false } }) := by
  unfold doJump
  rw [hrun]
  constructor
  · intro hg
    simp [hg]
  · intro hg
    simp [hg]

/-- A concrete running state with the player airborne (mid-jump). -/
def airborneState : GameState :=
  { initState with
      running := true,
      player := { initPlayer with y := 100, vy := -100, onGround := false } }

/-- Witness for C6: in the concrete running airborne state, the jump
request leaves the state unchanged. -/
theorem C6_witness :
    airborneState.running = true ∧ doJump 0 airborneState = airborneState :=
  ⟨rfl, (C6_jump_airborne_noop 0 airborneState rfl).1 (by rfl)⟩

/-- Claim C2: under the ground-contact invariant of the running system
(`GroundInv`, established by `groundInv_init` and preserved by
`groundInv_physStep`/`groundInv_doJump`/`groundInv_resetGame`/
`groundInv_loop`), one physics update with `0 ≤ Δt ≤ 0.033` behaves
exactly as the specification describes — `vy' = vy + g·Δt`,
`y' = y + vy'·Δt`, clamp to the ground with `vy' = 0, onGround = true`
when `y' ≥ groundY`, and `onGround = false` afterwards otherwise — and in
all cases the resulting `y` is at most `groundY`. -/
theorem C2_physics_update (p : Player) (dt : ℚ) (hp : GroundInv p)
    (h0 : 0 ≤ dt) (h1 : dt ≤ 33/1000) :
    physStep dt p = physStepSpec dt p ∧ (physStep dt p).y ≤ groundY := by
  constructor
  · unfold physStep physStepSpec
    dsimp only
    split
    · rfl
    · rename_i hlt
      have hog : p.onGround = false := by
        cases hg : p.onGround with
        | false => rfl
        | true =>
            obtain ⟨hv, hy⟩ := hp hg
            exfalso
            apply hlt
            rw [hv, hy]
            have hsq : 0 ≤ dt * dt := mul_nonneg h0 h0
            unfold gravity
            nlinarith [hsq]
      cases p
      simp_all
  · unfold physStep
    dsimp only
    split
    · exact le_refl _
    · rename_i hlt
      exact le_of_lt (lt_of_not_le (fun h => hlt h))

/-- Witness for C2 at the freshly grounded player and `Δt = 0.01`. -/
theorem C2_witness :
    (GroundInv initPlayer ∧ (0 : ℚ) ≤ 1/100 ∧ (1/100 : ℚ) ≤ 33/1000) ∧
    (physStep (1/100) initPlayer = physStepSpec (1/100) initPlayer ∧
      (physStep (1/100) initPlayer).y ≤ groundY) :=
  ⟨⟨groundInv_init, by norm_num, by norm_num⟩,
    C2_physics_update initPlayer (1/100) groundInv_init (by norm_num) (by norm_num)⟩

/-! ## The pass bonus fires at most once per obstacle -/

/-- The pass bonus fires on a tick iff the obstacle was not yet flagged
and its moved trailing edge is strictly left of the player. -/
lemma obMovePass_snd_true_iff (px d : ℚ) (ob : Obstacle) :
    (obMovePass px d ob).2 = true ↔
      (ob.passed = false ∧ ob.x - d + ob.w < px) := by
  show (!ob.passed && decide (ob.x - d + ob.w < px)) = true ↔ _
  simp [Bool.and_eq_true, Bool.not_eq_true', decide_eq_true_iff]

/-- The `passed` flag stays unset after a tick iff it was unset and the
trailing edge has not yet crossed the player. -/
lemma obMovePass_passed_false_iff (px d : ℚ) (ob : Obstacle) :
    ((obMovePass px d ob).1.passed = false) ↔
      (ob.passed = false ∧ ¬ (ob.x - d + ob.w < px)) := by
  show (ob.passed || (!ob.passed && decide (ob.x - d + ob.w < px))) = false ↔ _
  cases hp : ob.passed <;> simp

/-- Once the flag is set the bonus can never fire again. -/
lemma obPassRun_count_true_of_passed (px : ℚ) :
    ∀ (ds : List ℚ) (ob : Obstacle), ob.passed = true →
      (obPassRun px ob ds).count true = 0 := by
  intro ds
  induction ds with
  | nil => intro ob _; rfl
  | cons d ds ih =>
      intro ob hp
      simp only [obPassRun, List.count_cons]
      have hhit : (obMovePass px d ob).2 = false := by
        show (!ob.passed && decide (ob.x - d + ob.w < px)) = false
        rw [hp]
        rfl
      have hp' : ((obMovePass px d ob).1).passed = true := by
        show (ob.passed || (obMovePass px d ob).2) = true
        rw [hp]
        rfl
      rw [ih _ hp', hhit]
      simp

/-- The bonus fires at most once along any sequence of ticks. -/
lemma obPassRun_count_true_le_one (px : ℚ) :
    ∀ (ds : List ℚ) (ob : Obstacle), (obPassRun px ob ds).count true ≤ 1 := by
  intro ds
  induction ds with
  | nil => intro ob; simp [obPassRun]
  | cons d ds ih =>
      intro ob
      simp only [obPassRun, List.count_cons]
      cases hhit : (obMovePass px d ob).2 with
      | false => simpa [hhit] using ih (obMovePass px d ob).1
      | true =>
          have hp' : ((obMovePass px d ob).1).passed = true := by
            show (ob.passed || (obMovePass px d ob).2) = true
            rw [hhit]
            exact Bool.or_true _
          rw [obPassRun_count_true_of_passed px ds _ hp']
          simp

/-- The crossing condition at index 0 of a displacement list. -/
lemma condAt_zero_cons (px d : ℚ) (ob : Obstacle) (ds : List ℚ) :
    condAt px ob (d :: ds) 0 ↔ ob.x - d + ob.w < px := by
  unfold condAt
  simp

/-- Shifting the crossing condition across the first tick. -/
lemma condAt_cons (px d : ℚ) (ob : Obstacle) (ds : List ℚ) (j : ℕ) :
    condAt px (obMovePass px d ob).1 ds j ↔ condAt px ob (d :: ds) (j + 1) := by
  unfold condAt
  rw [obMovePass_fst_x, obMovePass_fst_w, List.take_succ_cons, List.sum_cons]
  constructor <;> intro h <;> linarith

/-- Splitting a bounded quantifier at 0. -/
lemma forall_lt_succ_split {P : ℕ → Prop} (i : ℕ) :
    (∀ j < i + 1, P j) ↔ P 0 ∧ ∀ j < i, P (j + 1) := by
  constructor
  · intro h
    exact ⟨h 0 (Nat.succ_pos _), fun j hj => h (j + 1) (by omega)⟩
  · rintro ⟨h0, hs⟩ j hj
    cases j with
    | zero => exact h0
    | succ j => exact hs j (by omega)

/-- Characterisation of the bonus flags: starting from flag state
`ob.passed`, the bonus fires on tick `i` iff the flag was initially unset,
the crossing condition holds after tick `i`, and it held after no earlier
tick. -/
lemma obPassRun_getD (px : ℚ) :
    ∀ (ds : List ℚ) (ob : Obstacle) (i : ℕ),
      ((obPassRun px ob ds).getD i false = true ↔
        (i < ds.length ∧ ob.passed = false ∧ condAt px ob ds i ∧
          ∀ j < i, ¬ condAt px ob ds j)) := by
  intro ds
  induction ds with
  | nil =>
      intro ob i
      simp [obPassRun]
  | cons d ds ih =>
      intro ob i
      cases i with
      | zero =>
          simp only [obPassRun, List.getD_cons_zero]
          rw [obMovePass_snd_true_iff, condAt_zero_cons]
          simp
      | succ i =>
          simp only [obPassRun, List.getD_cons_succ, List.length_cons]
          rw [ih (obMovePass px d ob).1 i]
          constructor
          · rintro ⟨hlen, hp', hcond, hprev⟩
            obtain ⟨hp, h0⟩ := (obMovePass_passed_false_iff px d ob).mp hp'
            refine ⟨by omega, hp, (condAt_cons px d ob ds i).mp hcond, ?_⟩
            intro j hj
            cases j with
            | zero =>
                rw [condAt_zero_cons]
                exact h0
            | succ j =>
                intro hc
                exact hprev j (by omega) ((condAt_cons px d ob ds j).mpr hc)
          · rintro ⟨hlen, hp, hcond, hprev⟩
            have h0 : ¬ (ob.x - d + ob.w < px) := by
              rw [← condAt_zero_cons px d ob ds]
              exact hprev 0 (by omega)
            refine ⟨by omega, (obMovePass_passed_false_iff px d ob).mpr ⟨hp, h0⟩,
              (condAt_cons px d ob ds i).mpr hcond, ?_⟩
            intro j hj hc
            exact hprev (j + 1) (by omega) ((condAt_cons px d ob ds j).mp hc)

/-- Claim C5: for an obstacle whose `passed` flag is unset (as set at
spawn), over any sequence of per-tick displacements the `+5` bonus fires
at most once, and it fires on tick `i` exactly when tick `i` is the first
tick after which the obstacle's trailing edge `x + w` is strictly left of
the player's leading edge. -/
theorem C5_pass_bonus_once (px : ℚ) (ob : Obstacle) (ds : List ℚ)
    (hp : ob.passed = false) :
    ((obPassRun px ob ds).count true ≤ 1) ∧
    ∀ i : ℕ, ((obPassRun px ob ds).getD i false = true ↔
      (i < ds.length ∧ condAt px ob ds i ∧ ∀ j < i, ¬ condAt px ob ds j)) := by
  refine ⟨obPassRun_count_true_le_one px ds ob, fun i => ?_⟩
  rw [obPassRun_getD px ds ob i]
  simp [hp]

/-! ## Pool/active exclusivity -/

lemma obIds_cons (ob : Obstacle) (l : List Obstacle) :
    obIds (ob :: l) = ob.id :: obIds l := rfl

lemma obIds_append (l1 l2 : List Obstacle) :
    obIds (l1 ++ l2) = obIds l1 ++ obIds l2 := List.map_append _ _ _

/-- The obstacle loop only moves obstacles between the active list and
the pool: the combined multiset of identities is unchanged. -/
lemma obLoop_ids_perm (pl : Player) (v dt : ℚ) :
    ∀ (obs : List Obstacle) (a : LoopAcc),
      ((obIds (obLoop pl v dt obs a).1 ++ obIds (obLoop pl v dt obs a).2.pool).Perm
        (obIds obs ++ obIds a.pool)) := by
  intro obs
  induction obs with
  | nil => intro a; exact List.Perm.refl _
  | cons ob rest ih =>
      intro a
      simp only [obLoop]
      have hpool :
          (if (obMovePass pl.x (v * dt) ob).2 then
              { (obLoop pl v dt rest a).2 with
                  score := (obLoop pl v dt rest a).2.score + 5 }
            else (obLoop pl v dt rest a).2).pool
            = (obLoop pl v dt rest a).2.pool := by
        split <;> rfl
      have hid : ((obMovePass pl.x (v * dt) ob).1).id = ob.id := rfl
      split
      · dsimp only
        rw [hpool, obIds_cons, hid]
        refine List.Perm.trans List.perm_middle ?_
        exact (ih a).cons ob.id
      · split
        · dsimp only
          rw [obIds_cons, hpool, hid]
          exact (ih a).cons ob.id
        · dsimp only
          rw [obIds_cons, hpool, hid]
          exact (ih a).cons ob.id

/-- Function `spawnObstacle` preserves pool/active exclusivity: it either moves
the pool's top into the active list, or allocates a genuinely fresh
identity. -/
lemma poolInv_spawnObstacle (c r1 r2 : ℚ) (s : GameState) (h : PoolInv s) :
    PoolInv (spawnObstacle c r1 r2 s) := by
  obtain ⟨hnd, hlt⟩ := h
  unfold PoolInv at *
  unfold spawnObstacle
  cases hp : s.obstaclePool with
  | nil =>
      rw [hp] at hnd hlt
      dsimp only
      simp only [obIds, List.map_append, List.map_nil, List.map_cons,
        List.append_nil] at *
      constructor
      · rw [List.nodup_append]
        refine ⟨hnd, List.nodup_singleton _, ?_⟩
        intro x hx hx'
        rw [List.mem_singleton] at hx'
        exact absurd (hlt x hx) (by omega)
      · intro i hi
        rw [List.mem_append, List.mem_singleton] at hi
        rcases hi with hi | hi
        · exact lt_trans (hlt i hi) (by omega)
        · omega
  | cons p ps =>
      rw [hp] at hnd hlt
      dsimp only
      simp only [obIds, List.map_append, List.map_cons, List.map_nil] at *
      rw [List.append_assoc]
      simp only [List.singleton_append]
      exact ⟨hnd, hlt⟩

/-- Function `resetGame` preserves exclusivity trivially: both lists are
emptied. -/
lemma poolInv_resetGame (nowR : ℚ) (s : GameState) :
    PoolInv (resetGame nowR s) := by
  unfold PoolInv resetGame
  constructor <;> simp [obIds]

lemma poolInv_init : PoolInv initState := by
  unfold PoolInv initState
  constructor <;> simp [obIds]

/-- A tick preserves pool/active exclusivity. -/
lemma poolInv_loop (now c r1 r2 rt : ℚ) (s : GameState) (h : PoolInv s) :
    PoolInv (loop now c r1 r2 rt s) := by
  unfold loop
  split
  · exact h
  · dsimp only
    split
    · have h2 := poolInv_spawnObstacle c r1 r2
        { s with lastTime := now,
                 score := s.score + (min ((now - s.lastTime) / 1000) (33/1000)) * 10,
                 speed := s.speed + (min ((now - s.lastTime) / 1000) (33/1000)) * 2,
                 spawnTimer := s.spawnTimer - (min ((now - s.lastTime) / 1000) (33/1000)) }
        (by exact h)
      obtain ⟨hnd, hlt⟩ := h2
      have hperm := obLoop_ids_perm
        (physStep (min ((now - s.lastTime) / 1000) (33/1000)) s.player)
        (s.speed + (min ((now - s.lastTime) / 1000) (33/1000)) * 2)
        (min ((now - s.lastTime) / 1000) (33/1000))
      constructor
      · exact (hperm _ _).nodup_iff.mpr hnd
      · intro i hi
        exact hlt i ((hperm _ _).mem_iff.mp hi)
    · obtain ⟨hnd, hlt⟩ := h
      have hperm := obLoop_ids_perm
        (physStep (min ((now - s.lastTime) / 1000) (33/1000)) s.player)
        (s.speed + (min ((now - s.lastTime) / 1000) (33/1000)) * 2)
        (min ((now - s.lastTime) / 1000) (33/1000))
      constructor
      · exact (hperm _ _).nodup_iff.mpr hnd
      · intro i hi
        exact hlt i ((hperm _ _).mem_iff.mp hi)

/-- Claim C9: pool/active exclusivity — no obstacle instance is ever in
both the active list and the pool, nor twice in either (stated via the
no-duplicate-identities invariant `PoolInv`) — is preserved by spawning,
by a whole tick (which includes the per-tick recycling), and by a game
reset. -/
theorem C9_pool_exclusive (now nowR c r1 r2 rt : ℚ) (s : GameState)
    (h : PoolInv s) :
    PoolInv (spawnObstacle c r1 r2 s) ∧ PoolInv (loop now c r1 r2 rt s) ∧
      PoolInv (resetGame nowR s) :=
  ⟨poolInv_spawnObstacle c r1 r2 s h, poolInv_loop now c r1 r2 rt s h,
    poolInv_resetGame nowR s⟩

/-- Witness for C9 at the concrete initial state. -/
theorem C9_witness :
    PoolInv initState ∧
      (PoolInv (spawnObstacle 0 0 0 initState) ∧
        PoolInv (loop 0 0 0 0 0 initState) ∧ PoolInv (resetGame 0 initState)) :=
  ⟨poolInv_init, C9_pool_exclusive 0 0 0 0 0 0 initState poolInv_init⟩

/-! ## Score and speed monotonicity -/

/-- Claim C8: a running tick with a monotone clock never decreases the
score or the speed. -/
theorem C8_score_speed_monotone (now c r1 r2 rt : ℚ) (s : GameState)
    (hrun : s.running = true) (hnow : s.lastTime ≤ now) :
    s.score ≤ (loop now c r1 r2 rt s).score ∧
      s.speed ≤ (loop now c r1 r2 rt s).speed := by
  have hdt : 0 ≤ min ((now - s.lastTime) / 1000) (33/1000 : ℚ) :=
    le_min (div_nonneg (by linarith) (by norm_num)) (by norm_num)
  unfold loop
  rw [if_neg (by simp [hrun])]
  dsimp only
  constructor
  · split
    · refine le_trans ?_ (obLoop_score_mono _ _ _ _ _)
      simp [spawnObstacle_score]
      exact ⟨div_nonneg (by linarith) (by norm_num), by norm_num⟩
    · refine le_trans ?_ (obLoop_score_mono _ _ _ _ _)
      dsimp only
      nlinarith [hdt]
  · split
    · simp [spawnObstacle_speed]
      exact ⟨div_nonneg (by linarith) (by norm_num), by norm_num⟩
    · dsimp only
      nlinarith [hdt]

/-- A concrete running state for the C8 witness. -/
def runningState : GameState := { initState with running := true }

/-- Witness for C8 at the concrete running initial state and a tick with
`now` equal to `lastTime`. -/
theorem C8_witness :
    (runningState.running = true ∧ runningState.lastTime ≤ 0) ∧
    (runningState.score ≤ (loop 0 0 0 0 0 runningState).score ∧
      runningState.speed ≤ (loop 0 0 0 0 0 runningState).speed) :=
  ⟨⟨rfl, le_refl 0⟩, C8_score_speed_monotone 0 0 0 0 0 runningState rfl (le_refl 0)⟩

/-! ## The first tick after a reset spawns exactly one obstacle -/

lemma fst_ite_pair {α β : Type} (c : Prop) [Decidable c]
    (x1 x2 : α) (y1 y2 : β) :
    (if c then (x1, y1) else (x2, y2)).1 = if c then x1 else x2 := by
  split <;> rfl

/-- Claim C10: `resetGame` sets the spawn countdown to 0, so the first
tick after it (for any elapsed time with a monotone clock, in particular
the synchronous `loop(lastTime)` call at the end of `resetGame` where
`Δt = 0`) decrements the countdown to a non-positive value, fires the
spawn condition, and ends with exactly one active obstacle. -/
theorem C10_first_tick_spawns (s : GameState) (nowR now c r1 r2 rt : ℚ)
    (hnow : nowR ≤ now) (hr1 : 0 ≤ r1) :
    (resetGame nowR s).spawnTimer = 0 ∧
      (loop now c r1 r2 rt (resetGame nowR s)).obstacles.length = 1 := by
  refine ⟨rfl, ?_⟩
  have hdt0 : 0 ≤ min ((now - nowR) / 1000) (33/1000 : ℚ) :=
    le_min (div_nonneg (by linarith) (by norm_num)) (by norm_num)
  have hdt1 : min ((now - nowR) / 1000) (33/1000 : ℚ) ≤ 33/1000 :=
    min_le_right _ _
  unfold loop
  rw [if_neg (by simp [resetGame])]
  dsimp only [resetGame]
  set dt := min ((now - nowR) / 1000) (33/1000 : ℚ) with hdtdef
  rw [if_pos (by linarith : 0 - dt ≤ 0)]
  simp only [spawnObstacle]
  simp only [List.nil_append]
  simp only [obLoop, obMovePass_fst_x, obMovePass_fst_w]
  have hW : (20:ℚ) ≤ if c < 2/5 then 20 + r1 * 20 else 30 + r1 * 40 := by
    split <;> linarith
  have hmv : (240 + dt * 2) * dt ≤ 8 := by
    nlinarith [mul_le_mul hdt1 hdt1 hdt0 (by norm_num : (0:ℚ) ≤ 33/1000),
      mul_le_mul_of_nonneg_left hdt1 (by norm_num : (0:ℚ) ≤ 240)]
  have hbase : baseW = (800:ℚ) := rfl
  rw [if_neg (by rw [not_lt]; linarith :
    ¬((baseW + 20 - (240 + dt * 2) * dt +
        if c < 2/5 then 20 + r1 * 20 else 30 + r1 * 40) < -40))]
  rw [fst_ite_pair, ite_self]
  simp

/-- Witness for C10: resetting from the initial state and ticking with
`now = lastTime` (the source's synchronous first tick) spawns one
obstacle. -/
theorem C10_witness :
    ((0 : ℚ) ≤ 0 ∧ (0 : ℚ) ≤ 0) ∧
    ((resetGame 0 initState).spawnTimer = 0 ∧
      (loop 0 0 0 0 0 (resetGame 0 initState)).obstacles.length = 1) :=
  ⟨⟨le_refl 0, le_refl 0⟩,
    C10_first_tick_spawns initState 0 0 0 0 0 0 (le_refl 0) (le_refl 0)⟩

/-- A concrete freshly spawned obstacle for the C5 witness. -/
def ob5 : Obstacle :=
  { id := 0, w := 10, h := 30, x := 100, y := 350, color := "#ef5350",
    passed := false }

/-- Witness for C5 at a concrete obstacle and two displacement ticks. -/
theorem C5_witness :
    ob5.passed = false ∧ (obPassRun 80 ob5 [20, 20]).count true ≤ 1 :=
  ⟨rfl, (C5_pass_bonus_once 80 ob5 [20, 20] rfl).1⟩

end Jumper
